import Mathlib

/-!
Verification development for the QuMail backend core:
the encryption engine of `backend/crypto_utils.py` (class `CryptoManager`)
and the key-manager mock of `backend/km_mock.py` (`EphemeralKey`,
`KMSession`, `KeyManagerMock` and its routes).

Modelling conventions:
- Byte strings are `List Nat` with every element `< 256` where byte-ness
  matters (hypothesis `isBytes`).
- Wall-clock time (`datetime.utcnow()`) is passed explicitly as a `now : Nat`
  counted in whole seconds; `timedelta` arithmetic follows Python semantics
  (`.seconds` is the within-day component, i.e. modulo 86400).
- `secrets.token_bytes(n)` is modelled by drawing `n` bytes from an explicit
  byte stream `rand : Nat -> Nat` passed by the caller.
- Cryptographic primitives from external libraries (hashlib, hmac,
  cryptography.hazmat) are not code of this repository; they are modelled by
  executable idealizations that keep exactly the properties the code relies
  on: SHA-256 is a deterministic 32-byte digest, HMAC-SHA256 is a
  deterministic keyed MAC that is collision-free in (key, data) — the
  standard ideal-MAC assumption under which the code's tamper-detection
  claims are stated — and AES-GCM is an ideal authenticated cipher whose
  decrypt succeeds exactly on ciphertexts produced with the same key and
  nonce. `json.dumps`/`json.loads` of the fixed content dictionary are
  modelled by an injective serializer and its inverse. `base64` is modelled
  concretely because the claims are sensitive to Python's lenient decoder
  (which discards unused trailing bits of the final base64 character).
-/

/-- A list of `Nat` is a byte string when every entry is below 256. -/
def isBytes (l : List Nat) : Prop := ∀ b ∈ l, b < 256

instance (l : List Nat) : Decidable (isBytes l) := by
  unfold isBytes; infer_instance

/-- ASCII bytes of a Lean string literal (used for the fixed labels
`b"MAC"`, `b"AES"`, `b"qumail_default_key"`, `b"qumail_salt"`). -/
def strBytes (s : String) : List Nat := s.data.map Char.toNat

/-- Model of `secrets.token_bytes n`: the first `n` bytes of the caller's
random byte stream. -/
def tokenBytes (n : Nat) (rand : Nat → Nat) : List Nat :=
  (List.range n).map (fun i => rand i % 256)

/-- Injective marker encoding of a byte string, used as the skeleton of the
idealized primitives: `[]` encodes to `[0]`, `x :: xs` to `1 :: x :: encB xs`.
It is prefix-free, so concatenations of encoded blocks parse uniquely. -/
def encB : List Nat → List Nat
  | [] => [0]
  | x :: xs => 1 :: x :: encB xs

/-- Decoder for one `encB` block, returning the block and the rest. -/
def decB : List Nat → Option (List Nat × List Nat)
  | 0 :: rest => some ([], rest)
  | 1 :: x :: rest =>
    match decB rest with
    | some (l, r) => some (x :: l, r)
    | none => none
  | _ => none

/-- Idealized SHA-256 (`hashlib.sha256(...).digest()`): a deterministic
32-byte digest. The mixing is a toy fold; what the source relies on is only
determinism and the fixed 32-byte output length (which routes the derived
AES key past the PBKDF2 fallback in `aes_encrypt`). -/
def sha256 (l : List Nat) : List Nat :=
  (List.range 32).map
    (fun i => l.foldl (fun acc b => (acc * 131 + b + 1) % 256) ((i * 37 + 11) % 256))

/-- Idealized PBKDF2-HMAC-SHA256 (`PBKDF2HMAC(..., length=32, salt, iterations)`
followed by `.derive(key)`): a deterministic 32-byte key, distinct as a
function from `sha256`. -/
def pbkdf2_hmac_sha256 (password salt : List Nat) (iterations : Nat) : List Nat :=
  (List.range 32).map
    (fun i =>
      password.foldl (fun acc b => (acc * 193 + b + 7) % 256)
        ((salt.foldl (fun acc b => (acc * 97 + b + 3) % 256) (i + iterations)) % 256))

/-- Idealized HMAC-SHA256 (`hmac.new(key, data, hashlib.sha256).digest()`):
a deterministic keyed MAC, injective in `(key, data)` — the ideal-MAC
(collision-free) reading of HMAC's collision resistance, which is what the
repository's tamper-detection behaviour relies on. -/
def hmacSha256 (key data : List Nat) : List Nat :=
  encB key ++ encB data

/-- Idealized AES-256-GCM encryption (`AESGCM(key).encrypt(nonce, pt, None)`):
an ideal authenticated cipher, modelled as a tagged container binding the
key and nonce to the plaintext so that decryption succeeds exactly when key
and nonce match. -/
def aesgcmEncrypt (key nonce pt : List Nat) : List Nat :=
  encB key ++ encB nonce ++ pt

/-- Idealized AES-256-GCM decryption (`AESGCM(key).decrypt(nonce, ct, None)`);
raises `InvalidTag` on any key/nonce/ciphertext mismatch. -/
def aesgcmDecrypt (key nonce ct : List Nat) : Except String (List Nat) :=
  let pre := encB key ++ encB nonce
  if ct.take pre.length = pre then .ok (ct.drop pre.length)
  else .error "InvalidTag"

/-- Value of one base64 alphabet character (`None` for non-alphabet bytes). -/
def b64val (c : Nat) : Option Nat :=
  if 65 ≤ c ∧ c ≤ 90 then some (c - 65)
  else if 97 ≤ c ∧ c ≤ 122 then some (c - 71)
  else if 48 ≤ c ∧ c ≤ 57 then some (c + 4)
  else if c = 43 then some 62
  else if c = 47 then some 63
  else none

/-- Base64 alphabet character for a 6-bit value. -/
def b64char (v : Nat) : Nat :=
  if v < 26 then v + 65
  else if v < 52 then v + 71
  else if v < 62 then v - 4
  else if v = 62 then 43
  else 47

/-- Model of `base64.b64encode` over bytes (output is the ASCII byte string;
61 is the code of the padding character). -/
def b64encode : List Nat → List Nat
  | [] => []
  | [a] => [b64char (a / 4), b64char (a % 4 * 16), 61, 61]
  | [a, b] => [b64char (a / 4), b64char (a % 4 * 16 + b / 16), b64char (b % 16 * 4), 61]
  | a :: b :: c :: rest =>
    b64char (a / 4) :: b64char (a % 4 * 16 + b / 16) ::
      b64char (b % 16 * 4 + c / 64) :: b64char (c % 64) :: b64encode rest

/-- Decode a list of 6-bit values into bytes the way CPython's
`binascii.a2b_base64` does: full quads give 3 bytes, a trailing triple gives
2 bytes and a trailing pair 1 byte, in both cases silently discarding the
unused trailing bits of the final character; a single leftover character is
an error. -/
def b64decodeVals : List Nat → Except String (List Nat)
  | [] => .ok []
  | [v1, v2] => .ok [v1 * 4 + v2 / 16]
  | [v1, v2, v3] => .ok [v1 * 4 + v2 / 16, v2 % 16 * 16 + v3 / 4]
  | v1 :: v2 :: v3 :: v4 :: rest =>
    match b64decodeVals rest with
    | .ok bs => .ok ((v1 * 4 + v2 / 16) :: (v2 % 16 * 16 + v3 / 4) :: (v3 % 4 * 64 + v4) :: bs)
    | .error e => .error e
  | [_] => .error "Invalid padding"

/-- Model of Python's `base64.b64decode` on ASCII byte strings: data
characters, then up to two padding characters; total length must be a
multiple of 4 ("Incorrect padding" otherwise); unused trailing bits of the
final data character are discarded. Inputs with characters outside the
alphabet or stray padding are rejected (Python silently discards foreign
characters instead; no theorem below depends on that corner, and both sides
reach `decrypt_email`'s catch-all handler). -/
def b64decode (s : List Nat) : Except String (List Nat) :=
  let data := s.takeWhile (fun c => c ≠ 61)
  let pads := s.dropWhile (fun c => c ≠ 61)
  if ¬ pads.all (fun c => c = 61) then .error "Invalid base64-encoded string"
  else if 2 < pads.length then .error "Invalid base64-encoded string"
  else if (data.length + pads.length) % 4 ≠ 0 then .error "Incorrect padding"
  else
    match data.mapM b64val with
    | none => .error "Invalid base64-encoded string"
    | some vals => b64decodeVals vals

/-! CryptoManager primitives (`backend/crypto_utils.py`). The methods below
carry the source's names; `self` is dropped since they use no instance
state. -/

/-- Availability flag of the optional `pqcrypto` bindings (source lines
22-30). The repository ships no such dependency, so the import falls back
and the flag is `False`, matching the "classical crypto" fallback path. -/
def PQC_AVAILABLE : Bool := false

/-- Source `CryptoManager.otp_encrypt`: raises `ValueError` when the key is
shorter than the plaintext, otherwise XORs the plaintext with the key
truncated to the plaintext's length. -/
def otp_encrypt (plaintext key : List Nat) : Except String (List Nat) :=
  if key.length < plaintext.length then
    .error "OTP key must be at least as long as plaintext"
  else
    .ok (List.zipWith Nat.xor plaintext (key.take plaintext.length))

/-- Source `CryptoManager.otp_decrypt`: same XOR with the roles of
plaintext and ciphertext swapped. -/
def otp_decrypt (ciphertext key : List Nat) : Except String (List Nat) :=
  if key.length < ciphertext.length then
    .error "OTP key must be at least as long as ciphertext"
  else
    .ok (List.zipWith Nat.xor ciphertext (key.take ciphertext.length))

/-- Source `CryptoManager.aes_encrypt`: if the key is not 16/24/32 bytes it
is first replaced by a PBKDF2 derivation with the fixed salt
`b'qumail_salt'` and 100000 iterations; then AES-GCM encryption under a
fresh 12-byte nonce drawn from the random source. Returns
(ciphertext, nonce). -/
def aes_encrypt (plaintext key : List Nat) (rand : Nat → Nat) : List Nat × List Nat :=
  let k :=
    if key.length = 16 ∨ key.length = 24 ∨ key.length = 32 then key
    else pbkdf2_hmac_sha256 key (strBytes "qumail_salt") 100000
  let nonce := tokenBytes 12 rand
  (aesgcmEncrypt k nonce plaintext, nonce)

/-- Source `CryptoManager.aes_decrypt`: same key normalization, then
AES-GCM decryption (which raises `InvalidTag` on authentication failure). -/
def aes_decrypt (ciphertext key nonce : List Nat) : Except String (List Nat) :=
  let k :=
    if key.length = 16 ∨ key.length = 24 ∨ key.length = 32 then key
    else pbkdf2_hmac_sha256 key (strBytes "qumail_salt") 100000
  aesgcmDecrypt k nonce ciphertext

/-- Source `CryptoManager.compute_hmac`: base64 of the HMAC-SHA256 digest
of `data` under `key`. -/
def compute_hmac (data key : List Nat) : List Nat :=
  b64encode (hmacSha256 key data)

/-- Source `CryptoManager.verify_hmac`: base64-decode the expected MAC and
compare digests in constant time; any exception yields `false`. -/
def verify_hmac (data key expected_mac : List Nat) : Bool :=
  match b64decode expected_mac with
  | .error _ => false
  | .ok expected_digest => decide (hmacSha256 key data = expected_digest)

/-- Hex digit character for a value below 16 (`hexdigest` building block). -/
def hexDigit (n : Nat) : Nat := if n < 10 then n + 48 else n + 87

/-- Hex characters of a byte string (`hashlib.sha256(..).hexdigest()`). -/
def hexOfBytes (l : List Nat) : List Nat :=
  l.foldr (fun b acc => hexDigit (b / 16) :: hexDigit (b % 16) :: acc) []

/-- Source `hashlib.sha256(km_key).hexdigest()[:16]`, the key fingerprint
stored in the `km_key_id` envelope field. -/
def kmKeyIdOf (km_key : List Nat) : List Nat :=
  (hexOfBytes (sha256 km_key)).take 16

/-! Email data model. `encrypt_email` reads `to`, `subject`, `body` (and
`cc`, `bcc`, `attachments` with defaults) from the input dictionary; the
attachments list is kept opaque as a single byte string. -/

/-- Plaintext envelope handed to `CryptoManager.encrypt_email`. -/
structure EmailData where
  toAddr : List Nat
  cc : List Nat
  bcc : List Nat
  subject : List Nat
  body : List Nat
  attachments : List Nat
deriving Repr, DecidableEq, Inhabited

/-- The content dictionary `{subject, body, attachments}` that is JSON
serialized and encrypted. -/
structure Content where
  subject : List Nat
  body : List Nat
  attachments : List Nat
deriving Repr, DecidableEq, Inhabited

/-- Content dictionary extracted from an email (source lines 217-221). -/
def contentOf (e : EmailData) : Content :=
  { subject := e.subject, body := e.body, attachments := e.attachments }

/-- Model of `json.dumps(content).encode('utf-8')`: an injective, invertible
serialization of the content dictionary into bytes. -/
def serializeContent (c : Content) : List Nat :=
  encB c.subject ++ encB c.body ++ encB c.attachments

/-- Model of `json.loads(bytes.decode('utf-8'))` specialized to the content
dictionary: the inverse of `serializeContent`, `none` on malformed input
(covering both `UnicodeDecodeError` and `JSONDecodeError`). -/
def deserializeContent (bs : List Nat) : Option Content :=
  match decB bs with
  | none => none
  | some (s, r1) =>
    match decB r1 with
    | none => none
    | some (b, r2) =>
      match decB r2 with
      | none => none
      | some (a, r3) =>
        if r3 = [] then some { subject := s, body := b, attachments := a } else none

/-- Ciphertext envelope / decrypt result: the string-keyed dictionary the
source passes around, with one `Option` field per key that may be absent.
`content`, `nonce` and `mac` hold base64 ASCII byte strings, `km_key_id`
hex characters. `headers` abstracts the `X-QuMail-*` header block by its
`X-QuMail-Encryption` value. `subject`, `body`, `attachments` appear only
after a successful decrypt (`decrypted_email.update(content)`). -/
structure Envelope where
  toAddr : List Nat
  cc : List Nat
  bcc : List Nat
  encryption_mode : Option String
  timestamp : Option Nat
  content : Option (List Nat)
  nonce : Option (List Nat)
  km_key_id : Option (List Nat)
  pqc_public : Option (List Nat)
  pqc_ciphertext : Option (List Nat)
  mac : Option (List Nat)
  headers : Option String
  subject : Option (List Nat)
  body : Option (List Nat)
  attachments : Option (List Nat)
  decryption_status : Option String
  decryption_error : Option String
deriving Repr, DecidableEq, Inhabited

/-- Source `CryptoManager.encrypt_email` (lines 213-305). `rand` models the
process's CSPRNG byte stream for this call, `now` the call's
`datetime.utcnow()` in seconds. Exceptions are re-raised by the source's
handler, modelled by `Except.error`. -/
def encrypt_email (email : EmailData) (encryption_mode : String)
    (km_key : Option (List Nat)) (rand : Nat → Nat) (now : Nat) :
    Except String Envelope :=
  let content_bytes := serializeContent (contentOf email)
  let base : Envelope :=
    { toAddr := email.toAddr, cc := email.cc, bcc := email.bcc
      encryption_mode := some encryption_mode, timestamp := some now
      content := none, nonce := none, km_key_id := none
      pqc_public := none, pqc_ciphertext := none, mac := none
      headers := some encryption_mode
      subject := none, body := none, attachments := none
      decryption_status := none, decryption_error := none }
  if encryption_mode = "OTP" then
    match km_key with
    | none => .error "KM key required for OTP encryption"
    | some k =>
      if k = [] then .error "KM key required for OTP encryption"
      else
        match otp_encrypt content_bytes k with
        | .error e => .error e
        | .ok encrypted_content =>
          let mac_key := sha256 (k ++ strBytes "MAC")
          .ok { base with
                content := some (b64encode encrypted_content)
                km_key_id := some (kmKeyIdOf k)
                mac := some (compute_hmac encrypted_content mac_key) }
  else if encryption_mode = "AES" then
    match km_key with
    | none => .error "KM key required for AES encryption"
    | some k =>
      if k = [] then .error "KM key required for AES encryption"
      else
        let aes_key := sha256 (k ++ strBytes "AES")
        let ec := aes_encrypt content_bytes aes_key rand
        let mac_key := sha256 (k ++ strBytes "MAC")
        .ok { base with
              content := some (b64encode ec.1)
              nonce := some (b64encode ec.2)
              km_key_id := some (kmKeyIdOf k)
              mac := some (compute_hmac (ec.1 ++ ec.2) mac_key) }
  else if encryption_mode = "PQC" then
    if ¬ PQC_AVAILABLE then .error "PQC not available, falling back to AES"
    else .error "PQC branch unreachable in this environment"
  else if encryption_mode = "NONE" then
    .ok { base with
          content := some (b64encode content_bytes)
          mac := some (compute_hmac content_bytes (strBytes "qumail_default_key")) }
  else
    .error ("Unknown encryption mode: " ++ encryption_mode)

/-- OTP branch of `decrypt_email` (source lines 312-325): key check, base64
decode of `content`, MAC verification over the raw ciphertext, then OTP
decrypt and JSON parse — in the source's order. Missing-field errors carry
the `KeyError` rendering. -/
def otpBranch (e : Envelope) (km_key : Option (List Nat)) : Except String Content :=
  match km_key with
  | none => .error "KM key required for OTP decryption"
  | some k =>
    if k = [] then .error "KM key required for OTP decryption"
    else
      match e.content with
      | none => .error "'content'"
      | some contentB64 =>
        match b64decode contentB64 with
        | .error err => .error err
        | .ok encrypted_content =>
          let mac_key := sha256 (k ++ strBytes "MAC")
          match e.mac with
          | none => .error "'mac'"
          | some macStr =>
            if ¬ verify_hmac encrypted_content mac_key macStr then
              .error "MAC verification failed"
            else
              match otp_decrypt encrypted_content k with
              | .error err => .error err
              | .ok content_bytes =>
                match deserializeContent content_bytes with
                | none => .error "json decode failed"
                | some c => .ok c

/-- AES branch of `decrypt_email` (source lines 327-342). -/
def aesBranch (e : Envelope) (km_key : Option (List Nat)) : Except String Content :=
  match km_key with
  | none => .error "KM key required for AES decryption"
  | some k =>
    if k = [] then .error "KM key required for AES decryption"
    else
      match e.content with
      | none => .error "'content'"
      | some contentB64 =>
        match b64decode contentB64 with
        | .error err => .error err
        | .ok encrypted_content =>
          match e.nonce with
          | none => .error "'nonce'"
          | some nonceB64 =>
            match b64decode nonceB64 with
            | .error err => .error err
            | .ok nonce =>
              let mac_key := sha256 (k ++ strBytes "MAC")
              match e.mac with
              | none => .error "'mac'"
              | some macStr =>
                if ¬ verify_hmac (encrypted_content ++ nonce) mac_key macStr then
                  .error "MAC verification failed"
                else
                  let aes_key := sha256 (k ++ strBytes "AES")
                  match aes_decrypt encrypted_content aes_key nonce with
                  | .error err => .error err
                  | .ok content_bytes =>
                    match deserializeContent content_bytes with
                    | none => .error "json decode failed"
                    | some c => .ok c

/-- PQC branch of `decrypt_email` (source lines 344-354): with the bindings
unavailable it raises `RuntimeError("PQC not available")` immediately. -/
def pqcBranch (_e : Envelope) : Except String Content :=
  if ¬ PQC_AVAILABLE then .error "PQC not available"
  else .error "PQC decryption requires recipient's secret key"

/-- NONE branch of `decrypt_email` (source lines 356-363): base64 decode,
MAC under the fixed key `b"qumail_default_key"`, then JSON parse of the
decoded bytes. -/
def noneBranch (e : Envelope) : Except String Content :=
  match e.content with
  | none => .error "'content'"
  | some contentB64 =>
    match b64decode contentB64 with
    | .error err => .error err
    | .ok encrypted_content =>
      match e.mac with
      | none => .error "'mac'"
      | some macStr =>
        if ¬ verify_hmac encrypted_content (strBytes "qumail_default_key") macStr then
          .error "MAC verification failed"
        else
          match deserializeContent encrypted_content with
          | none => .error "json decode failed"
          | some c => .ok c

/-- Mode dispatch of `decrypt_email` (source line 310 and the `elif`
chain): a missing `encryption_mode` field defaults to `"NONE"`. -/
def decryptCore (e : Envelope) (km_key : Option (List Nat)) : Except String Content :=
  let mode := e.encryption_mode.getD "NONE"
  if mode = "OTP" then otpBranch e km_key
  else if mode = "AES" then aesBranch e km_key
  else if mode = "PQC" then pqcBranch e
  else if mode = "NONE" then noneBranch e
  else .error ("Unknown encryption mode: " ++ mode)

/-- Source `CryptoManager.decrypt_email` (lines 307-381): on success the
input dictionary is copied, updated with the decrypted content fields and
marked `decryption_status = "success"`; the catch-all handler turns any
exception into the original dictionary annotated with
`decryption_status = "error"` and the exception's message. -/
def decrypt_email (e : Envelope) (km_key : Option (List Nat)) : Envelope :=
  match decryptCore e km_key with
  | .ok c =>
    { e with subject := some c.subject, body := some c.body
             attachments := some c.attachments
             decryption_status := some "success" }
  | .error msg =>
    { e with decryption_status := some "error", decryption_error := some msg }

/-! Key Manager mock (`backend/km_mock.py`). Python dictionaries are
modelled as association lists with `dictLookup`/`dictInsert`; object
mutation becomes explicit state passing. The envelope field `toAddr` above
and nothing here renames a source key except where Lean reserves the word. -/

/-- Lookup in an association-list dictionary. -/
def dictLookup {α : Type} (l : List (String × α)) (k : String) : Option α :=
  match l with
  | [] => none
  | (k', v) :: rest => if k' = k then some v else dictLookup rest k

/-- Insert/overwrite in an association-list dictionary (`d[k] = v`). -/
def dictInsert {α : Type} (l : List (String × α)) (k : String) (v : α) :
    List (String × α) :=
  (k, v) :: l.filter (fun p => p.1 ≠ k)

/-- Source `EphemeralKey` (lines 22-67): key id, mutable key material,
issuance and expiry instants, consumed flag, owning session. -/
structure EphemeralKey where
  key_id : String
  key_data : List Nat
  created_at : Nat
  expires_at : Nat
  consumed : Bool
  session_id : Option String
deriving Repr, DecidableEq, Inhabited

/-- Source `EphemeralKey.is_expired`: `datetime.utcnow() > self.expires_at`. -/
def EphemeralKey.is_expired (k : EphemeralKey) (now : Nat) : Bool :=
  decide (k.expires_at < now)

/-- Source `EphemeralKey.is_valid`: not expired and not consumed. -/
def EphemeralKey.is_valid (k : EphemeralKey) (now : Nat) : Bool :=
  !(k.is_expired now) && !k.consumed

/-- Source `EphemeralKey.consume`: raises unless valid, otherwise marks the
key consumed and returns a copy of the material. -/
def EphemeralKey.consume (k : EphemeralKey) (now : Nat) :
    Except String (List Nat × EphemeralKey) :=
  if k.is_valid now then .ok (k.key_data, { k with consumed := true })
  else .error "Key is expired or already consumed"

/-- Source `KMSession` (lines 69-134). -/
structure KMSession where
  session_id : String
  user_email : String
  created_at : Nat
  last_activity : Nat
  active : Bool
  keys_requested : Nat
  keys_consumed : Nat
  current_keys : List (String × EphemeralKey)
deriving Repr, Inhabited

/-- Source `KMSession.update_activity`: stamp `last_activity` with now. -/
def KMSession.update_activity (s : KMSession) (now : Nat) : KMSession :=
  { s with last_activity := now }

/-- Source `KMSession.is_expired`:
`(datetime.utcnow() - self.last_activity).seconds > session_timeout`.
Python's `timedelta.seconds` is the within-day component — the elapsed
seconds modulo 86400 — not the total duration. -/
def KMSession.is_expired (s : KMSession) (now : Nat) (session_timeout : Nat) : Bool :=
  decide (session_timeout < (now - s.last_activity) % 86400)

/-- Source `KMSession.add_key`: tag the key with the session, store it in
`current_keys`, bump `keys_requested`, refresh activity. -/
def KMSession.add_key (s : KMSession) (k : EphemeralKey) (now : Nat) : KMSession :=
  let k' := { k with session_id := some s.session_id }
  { s with current_keys := dictInsert s.current_keys k'.key_id k'
           keys_requested := s.keys_requested + 1
           last_activity := now }

/-- Source `KMSession.get_key`: refresh activity, then dictionary lookup —
the activity refresh happens whether or not the key exists. -/
def KMSession.get_key (s : KMSession) (key_id : String) (now : Nat) :
    Option EphemeralKey × KMSession :=
  (dictLookup s.current_keys key_id, s.update_activity now)

/-- Source `KMSession.consume_key`: `get_key`, validity check, then
`EphemeralKey.consume` (the consumed flag lands back in `current_keys`
because Python mutates the stored object in place); `None` on any failure. -/
def KMSession.consume_key (s : KMSession) (key_id : String) (now : Nat) :
    Option (List Nat) × KMSession :=
  match s.get_key key_id now with
  | (none, s1) => (none, s1)
  | (some k, s1) =>
    if k.is_valid now then
      match k.consume now with
      | .ok kd =>
        (some kd.1, { s1 with current_keys := dictInsert s1.current_keys key_id kd.2
                              keys_consumed := s1.keys_consumed + 1 })
      | .error _ => (none, s1)
    else (none, s1)

/-- Source `KeyManagerMock` state and configuration (lines 136-153). -/
structure KeyManagerMock where
  sessions : List (String × KMSession)
  key_storage : List (String × EphemeralKey)
  default_key_size : Nat := 32
  max_key_size : Nat := 64
  key_expiry_seconds : Nat := 300
  session_timeout : Nat := 3600
  max_keys_per_session : Nat := 100
deriving Repr, Inhabited

/-- Source route `GET /api/v1/getKey` (lines 224-272): session validation
(`is_expired` is called with its default 3600-second timeout), key-size
validation, quota check against `len(session.current_keys)`, then key
generation and registration. `new_key_id` models `secrets.token_urlsafe(16)`;
errors carry the HTTP status and detail. Returns
(key_id, key_data, expires_at) on success, paired with the new state. -/
def route_getKey (m : KeyManagerMock) (session_id : String)
    (key_size : Option Nat) (new_key_id : String) (rand : Nat → Nat) (now : Nat) :
    Except (Nat × String) (String × List Nat × Nat) × KeyManagerMock :=
  match dictLookup m.sessions session_id with
  | none => (.error (401, "Invalid or expired session"), m)
  | some s =>
    if ¬ s.active ∨ s.is_expired now 3600 then
      (.error (401, "Invalid or expired session"), m)
    else
      let ks := key_size.getD m.default_key_size
      if m.max_key_size < ks ∨ ks < 16 then (.error (400, "Invalid key size"), m)
      else if m.max_keys_per_session ≤ s.current_keys.length then
        (.error (429, "Key limit exceeded"), m)
      else
        let key_data := tokenBytes ks rand
        let k : EphemeralKey :=
          { key_id := new_key_id, key_data := key_data, created_at := now
            expires_at := now + m.key_expiry_seconds, consumed := false
            session_id := none }
        let s' := s.add_key k now
        let m' := { m with
                    sessions := dictInsert m.sessions session_id s'
                    key_storage := dictInsert m.key_storage new_key_id
                      { k with session_id := some session_id } }
        (.ok (new_key_id, key_data, now + m.key_expiry_seconds), m')

/-- Source route `POST /api/v1/consumeKey` (lines 274-298): session must
exist and be active (expiry is not checked here); `session.consume_key`
runs — mutating the session even on failure — and a falsy result
(`None` or empty bytes) becomes the 404 "Key not found or expired". -/
def route_consumeKey (m : KeyManagerMock) (session_id key_id : String) (now : Nat) :
    Except (Nat × String) (List Nat) × KeyManagerMock :=
  match dictLookup m.sessions session_id with
  | none => (.error (401, "Invalid session"), m)
  | some s =>
    if ¬ s.active then (.error (401, "Invalid session"), m)
    else
      let r := s.consume_key key_id now
      let m' := { m with sessions := dictInsert m.sessions session_id r.2 }
      match r.1 with
      | none => (.error (404, "Key not found or expired"), m')
      | some kd =>
        if kd = [] then (.error (404, "Key not found or expired"), m')
        else (.ok kd, m')

/-! Supporting lemmas. -/

theorem encB_bytes {l : List Nat} (h : isBytes l) : isBytes (encB l) := by
  induction l with
  | nil => intro b hb; simp [encB] at hb; omega
  | cons x xs ih =>
    intro b hb
    simp only [encB, List.mem_cons] at hb
    rcases hb with h1 | h1 | h1
    · omega
    · exact h1 ▸ h x (List.mem_cons_self x xs)
    · exact ih (fun b hb => h b (List.mem_cons_of_mem x hb)) b h1

theorem isBytes_append {l r : List Nat} (hl : isBytes l) (hr : isBytes r) :
    isBytes (l ++ r) := by
  intro b hb
  rcases List.mem_append.mp hb with h | h
  · exact hl b h
  · exact hr b h

theorem decB_encB (l r : List Nat) : decB (encB l ++ r) = some (l, r) := by
  induction l with
  | nil => simp [encB, decB]
  | cons x xs ih => simp [encB, decB, ih]

theorem encB_inj {a b : List Nat} (h : encB a = encB b) : a = b := by
  have h1 : decB (encB a ++ []) = decB (encB b ++ []) := by rw [h]
  rw [decB_encB, decB_encB] at h1
  exact (Prod.mk.injEq _ _ _ _ ▸ Option.some.injEq _ _ ▸ h1).1

theorem hmacSha256_data_inj {key d1 d2 : List Nat}
    (h : hmacSha256 key d1 = hmacSha256 key d2) : d1 = d2 := by
  unfold hmacSha256 at h
  exact encB_inj (List.append_cancel_left h)

theorem deserialize_serialize (c : Content) :
    deserializeContent (serializeContent c) = some c := by
  unfold serializeContent deserializeContent
  rw [List.append_assoc, decB_encB]
  simp only []
  rw [decB_encB]
  simp only []
  have h3 : decB (encB c.attachments) = some (c.attachments, []) := by
    have := decB_encB c.attachments []
    simpa using this
  rw [h3]
  simp

theorem foldl_lt_256 (f : Nat → Nat → Nat) (hf : ∀ a b, a < 256 → f a b < 256) :
    ∀ (l : List Nat) (a : Nat), a < 256 → l.foldl f a < 256 := by
  intro l
  induction l with
  | nil => intro a ha; simpa using ha
  | cons x xs ih => intro a ha; simpa using ih (f a x) (hf a x ha)

theorem sha256_bytes (l : List Nat) : isBytes (sha256 l) := by
  intro b hb
  simp only [sha256, List.mem_map, List.mem_range] at hb
  obtain ⟨i, _, hi⟩ := hb
  subst hi
  exact foldl_lt_256 _ (fun a b _ => Nat.mod_lt _ (by omega)) l _
    (Nat.mod_lt _ (by omega))

theorem sha256_length (l : List Nat) : (sha256 l).length = 32 := by
  simp [sha256]

theorem tokenBytes_length (n : Nat) (rand : Nat → Nat) :
    (tokenBytes n rand).length = n := by
  simp [tokenBytes]

theorem tokenBytes_bytes (n : Nat) (rand : Nat → Nat) : isBytes (tokenBytes n rand) := by
  intro b hb
  simp only [tokenBytes, List.mem_map] at hb
  obtain ⟨i, _, hi⟩ := hb
  subst hi
  exact Nat.mod_lt _ (by omega)

theorem hmacSha256_bytes {key data : List Nat} (hk : isBytes key) (hd : isBytes data) :
    isBytes (hmacSha256 key data) :=
  isBytes_append (encB_bytes hk) (encB_bytes hd)

theorem b64val_b64char : ∀ v < 64, b64val (b64char v) = some v := by decide

theorem b64char_ne_61 : ∀ v < 64, b64char v ≠ 61 := by decide

theorem b64decode_quad_cons {a b c : Nat} (ha : a < 256) (hb : b < 256) (hc : c < 256)
    (s : List Nat) :
    b64decode (b64char (a / 4) :: b64char (a % 4 * 16 + b / 16) ::
      b64char (b % 16 * 4 + c / 64) :: b64char (c % 64) :: s) =
      match b64decode s with
      | .ok bs => .ok (a :: b :: c :: bs)
      | .error e => .error e := by
  have h1 : a / 4 < 64 := by omega
  have h2 : a % 4 * 16 + b / 16 < 64 := by omega
  have h3 : b % 16 * 4 + c / 64 < 64 := by omega
  have h4 : c % 64 < 64 := by omega
  have n1 := b64char_ne_61 _ h1
  have n2 := b64char_ne_61 _ h2
  have n3 := b64char_ne_61 _ h3
  have n4 := b64char_ne_61 _ h4
  have v1 := b64val_b64char _ h1
  have v2 := b64val_b64char _ h2
  have v3 := b64val_b64char _ h3
  have v4 := b64val_b64char _ h4
  unfold b64decode
  simp only [List.takeWhile_cons, List.dropWhile_cons, n1, n2, n3, n4,
    decide_eq_true_eq, if_true, ne_eq, not_false_eq_true, ite_true]
  set data := List.takeWhile (fun c => decide ¬c = 61) s with hdata
  set pads := List.dropWhile (fun c => decide ¬c = 61) s with hpads
  by_cases hall : (pads.all fun c => decide (c = 61)) = true
  case neg => simp [hall]
  simp only [hall, not_true_eq_false, if_false, ite_false]
  by_cases h2l : 2 < pads.length
  case pos => simp [h2l]
  simp only [h2l, if_false, ite_false]
  have hlen : ((b64char (a / 4) :: b64char (a % 4 * 16 + b / 16) ::
      b64char (b % 16 * 4 + c / 64) :: b64char (c % 64) :: data).length + pads.length) % 4
      = (data.length + pads.length) % 4 := by
    simp only [List.length_cons]
    omega
  rw [hlen]
  by_cases hmod : (data.length + pads.length) % 4 = 0
  case neg => simp [hmod]
  simp only [hmod, not_true_eq_false, if_false, ite_false, if_true, ite_true]
  simp only [List.mapM_cons, v1, v2, v3, v4, Option.bind_some, Option.some_bind]
  cases hm : data.mapM b64val with
  | none => simp
  | some vals =>
    simp only [Option.bind_some, Option.some_bind, Option.map_some]
    have e1 : a / 4 * 4 + (a % 4 * 16 + b / 16) / 16 = a := by omega
    have e2 : (a % 4 * 16 + b / 16) % 16 * 16 + (b % 16 * 4 + c / 64) / 4 = b := by omega
    have e3 : (b % 16 * 4 + c / 64) % 4 * 64 + c % 64 = c := by omega
    show b64decodeVals (_ :: _ :: _ :: _ :: vals) = _
    rw [show b64decodeVals ((a/4) :: (a % 4 * 16 + b / 16) :: (b % 16 * 4 + c / 64) :: (c % 64) :: vals)
        = match b64decodeVals vals with
          | .ok bs => .ok ((a / 4 * 4 + (a % 4 * 16 + b / 16) / 16) ::
              ((a % 4 * 16 + b / 16) % 16 * 16 + (b % 16 * 4 + c / 64) / 4) ::
              ((b % 16 * 4 + c / 64) % 4 * 64 + c % 64) :: bs)
          | .error e => .error e from rfl]
    rw [e1, e2, e3]


theorem b64decode_tail1 {a : Nat} (ha : a < 256) :
    b64decode [b64char (a / 4), b64char (a % 4 * 16), 61, 61] = .ok [a] := by
  have h1 : a / 4 < 64 := by omega
  have h2 : a % 4 * 16 < 64 := by omega
  have n1 := b64char_ne_61 _ h1
  have n2 := b64char_ne_61 _ h2
  have v1 := b64val_b64char _ h1
  have v2 := b64val_b64char _ h2
  unfold b64decode
  simp only [List.takeWhile_cons, List.dropWhile_cons, n1, n2, decide_eq_true_eq,
    ne_eq, not_false_eq_true, ite_true, not_true_eq_false, ite_false,
    List.takeWhile_nil, List.dropWhile_nil]
  simp only [List.mapM_cons, List.mapM_nil, v1, v2, Option.bind_some, Option.some_bind,
    Option.pure_def]
  norm_num
  show b64decodeVals [a / 4, a % 4 * 16] = .ok [a]
  rw [show b64decodeVals [a / 4, a % 4 * 16] = .ok [a / 4 * 4 + (a % 4 * 16) / 16] from rfl]
  congr 2
  omega

theorem b64decode_tail2 {a b : Nat} (ha : a < 256) (hb : b < 256) :
    b64decode [b64char (a / 4), b64char (a % 4 * 16 + b / 16), b64char (b % 16 * 4), 61] =
      .ok [a, b] := by
  have h1 : a / 4 < 64 := by omega
  have h2 : a % 4 * 16 + b / 16 < 64 := by omega
  have h3 : b % 16 * 4 < 64 := by omega
  have n1 := b64char_ne_61 _ h1
  have n2 := b64char_ne_61 _ h2
  have n3 := b64char_ne_61 _ h3
  have v1 := b64val_b64char _ h1
  have v2 := b64val_b64char _ h2
  have v3 := b64val_b64char _ h3
  unfold b64decode
  simp only [List.takeWhile_cons, List.dropWhile_cons, n1, n2, n3, decide_eq_true_eq,
    ne_eq, not_false_eq_true, ite_true, not_true_eq_false, ite_false,
    List.takeWhile_nil, List.dropWhile_nil]
  simp only [List.mapM_cons, List.mapM_nil, v1, v2, v3, Option.bind_some, Option.some_bind,
    Option.pure_def]
  norm_num
  show b64decodeVals [a / 4, a % 4 * 16 + b / 16, b % 16 * 4] = .ok [a, b]
  rw [show b64decodeVals [a / 4, a % 4 * 16 + b / 16, b % 16 * 4]
      = .ok [a / 4 * 4 + (a % 4 * 16 + b / 16) / 16,
             (a % 4 * 16 + b / 16) % 16 * 16 + b % 16 * 4 / 4] from rfl]
  congr 3
  · omega
  · omega

theorem b64_roundtrip (l : List Nat) (h : isBytes l) : b64decode (b64encode l) = .ok l := by
  induction l using b64encode.induct with
  | case1 => rfl
  | case2 a =>
    exact b64decode_tail1 (h a (by simp))
  | case3 a b =>
    exact b64decode_tail2 (h a (by simp)) (h b (by simp))
  | case4 a b c rest ih =>
    have ha : a < 256 := h a (by simp)
    have hb : b < 256 := h b (by simp)
    have hc : c < 256 := h c (by simp)
    have hrest : isBytes rest := by
      intro x hx
      exact h x (by simp [hx])
    show b64decode (b64char (a / 4) :: b64char (a % 4 * 16 + b / 16) ::
      b64char (b % 16 * 4 + c / 64) :: b64char (c % 64) :: b64encode rest) = .ok (a :: b :: c :: rest)
    rw [b64decode_quad_cons ha hb hc, ih hrest]

theorem zipWith_xor_take (l k : List Nat) :
    List.zipWith Nat.xor l (k.take l.length) = List.zipWith Nat.xor l k := by
  induction l generalizing k with
  | nil => simp
  | cons x xs ih =>
    cases k with
    | nil => simp
    | cons y ys => simp [List.take, ih]

theorem zipWith_xor_cancel (l k : List Nat) (h : l.length ≤ k.length) :
    List.zipWith Nat.xor (List.zipWith Nat.xor l k) k = l := by
  induction l generalizing k with
  | nil => simp
  | cons x xs ih =>
    cases k with
    | nil => simp at h
    | cons y ys =>
      simp only [List.zipWith_cons_cons]
      have hx : Nat.xor (Nat.xor x y) y = x := Nat.xor_cancel_right y x
      simp only [List.length_cons, Nat.add_le_add_iff_right] at h
      rw [hx, ih ys h]

theorem zipWith_xor_length {l k : List Nat} (h : l.length ≤ k.length) :
    (List.zipWith Nat.xor l k).length = l.length := by
  simp [List.length_zipWith]
  omega

theorem xor_lt_256 {a b : Nat} (ha : a < 256) (hb : b < 256) : a ^^^ b < 256 :=
  Nat.xor_lt_two_pow (n := 8) ha hb

theorem zipWith_xor_bytes {l k : List Nat} (hl : isBytes l) (hk : isBytes k) :
    isBytes (List.zipWith Nat.xor l k) := by
  intro b hb
  obtain ⟨i, hi, hb⟩ := List.mem_iff_getElem.mp hb
  rw [List.getElem_zipWith] at hb
  subst hb
  exact xor_lt_256 (hl _ (List.getElem_mem _)) (hk _ (List.getElem_mem _))

theorem serializeContent_bytes {c : Content} (hs : isBytes c.subject)
    (hb : isBytes c.body) (ha : isBytes c.attachments) :
    isBytes (serializeContent c) :=
  isBytes_append (isBytes_append (encB_bytes hs) (encB_bytes hb)) (encB_bytes ha)

theorem verify_compute_self {data key : List Nat} (hk : isBytes key) (hd : isBytes data) :
    verify_hmac data key (compute_hmac data key) = true := by
  unfold verify_hmac compute_hmac
  rw [b64_roundtrip _ (hmacSha256_bytes hk hd)]
  simp

theorem verify_hmac_of_encode_ne {data data' key : List Nat}
    (hk : isBytes key) (hd : isBytes data)
    (hne : data' ≠ data) :
    verify_hmac data' key (compute_hmac data key) = false := by
  unfold verify_hmac compute_hmac
  rw [b64_roundtrip _ (hmacSha256_bytes hk hd)]
  simp only [decide_eq_false_iff_not]
  intro hcontra
  exact hne (hmacSha256_data_inj hcontra)

theorem dictLookup_insert_self {α : Type} (l : List (String × α)) (k : String) (v : α) :
    dictLookup (dictInsert l k v) k = some v := by
  simp [dictInsert, dictLookup]

theorem strBytes_bytes_ascii (s : String) (h : ∀ c ∈ s.data, c.toNat < 256) :
    isBytes (strBytes s) := by
  intro b hb
  simp only [strBytes, List.mem_map] at hb
  obtain ⟨c, hc, rfl⟩ := hb
  exact h c hc

/-! Claim theorems. -/

/-- C4: for every input envelope and key, `decrypt_email` is total (the
source's catch-all handler turns every content-shaped failure into data):
the result always preserves the original envelope's fields, and is either
marked `decryption_status = "success"` or is the original envelope
annotated with `decryption_status = "error"` and a reason string, with no
plaintext fields added on failure — so a batch can continue past one bad
message. -/
theorem c4_decrypt_never_throws (e : Envelope) (km_key : Option (List Nat)) :
    (decrypt_email e km_key).toAddr = e.toAddr ∧
    (decrypt_email e km_key).cc = e.cc ∧
    (decrypt_email e km_key).bcc = e.bcc ∧
    (decrypt_email e km_key).encryption_mode = e.encryption_mode ∧
    (decrypt_email e km_key).content = e.content ∧
    (decrypt_email e km_key).nonce = e.nonce ∧
    (decrypt_email e km_key).mac = e.mac ∧
    (decrypt_email e km_key).km_key_id = e.km_key_id ∧
    ((decrypt_email e km_key).decryption_status = some "success" ∨
      ((decrypt_email e km_key).decryption_status = some "error" ∧
       (∃ msg, (decrypt_email e km_key).decryption_error = some msg) ∧
       (decrypt_email e km_key).subject = e.subject ∧
       (decrypt_email e km_key).body = e.body ∧
       (decrypt_email e km_key).attachments = e.attachments)) := by
  unfold decrypt_email
  cases decryptCore e km_key <;> simp

/-- C5: `otp_encrypt` with a key shorter than the plaintext fails with the
key-too-short `ValueError` before any XOR happens (the function returns the
error without computing a ciphertext and touches no state); with a key at
least as long it succeeds with ciphertext `P XOR K` truncated to `|P|`
bytes, which differs from `P` whenever the used portion of `K` has a
non-zero byte. -/
theorem c5_otp_key_too_short (P K : List Nat) :
    (K.length < P.length →
      otp_encrypt P K = .error "OTP key must be at least as long as plaintext") ∧
    (P.length ≤ K.length →
      otp_encrypt P K = .ok (List.zipWith Nat.xor P (K.take P.length)) ∧
      ((∃ i, i < P.length ∧ K.getD i 0 ≠ 0) →
        List.zipWith Nat.xor P (K.take P.length) ≠ P)) := by
  constructor
  · intro h
    unfold otp_encrypt
    simp [h]
  · intro h
    constructor
    · unfold otp_encrypt
      simp [Nat.not_lt.mpr h]
    · rintro ⟨i, hi, hk⟩ hcontra
      rw [zipWith_xor_take] at hcontra
      have hik : i < K.length := by omega
      have hlen : i < (List.zipWith Nat.xor P K).length := by
        rw [List.length_zipWith]
        omega
      have hgd := congrArg (fun l => l.getD i 0) hcontra
      simp only [List.getD_eq_getElem?_getD, List.getElem?_eq_getElem hlen,
        List.getElem?_eq_getElem hi, Option.getD_some, List.getElem_zipWith] at hgd
      have hgd2 : P[i] ^^^ K[i] = P[i] := hgd
      have h0 : K[i] = 0 := by
        have h2 : P[i] ^^^ (P[i] ^^^ K[i]) = P[i] ^^^ P[i] := by rw [hgd2]
        rwa [← Nat.xor_assoc, Nat.xor_self, Nat.zero_xor] at h2
      rw [List.getD_eq_getElem?_getD, List.getElem?_eq_getElem hik] at hk
      simp [h0] at hk

/-- C5 witness: at `P = [1,2,3]`, `K = [5]` the call fails with
`KeyTooShort`; at `P = [1,2]`, `K = [3,0,9]` it succeeds with ciphertext
`[2,2] = P XOR K[:2]`, which differs from `P`. -/
theorem c5_otp_key_too_short_witness :
    otp_encrypt [1, 2, 3] [5] = .error "OTP key must be at least as long as plaintext" ∧
    otp_encrypt [1, 2] [3, 0, 9] = .ok [2, 2] ∧ [2, 2] ≠ [1, 2] :=
  ⟨(c5_otp_key_too_short [1, 2, 3] [5]).1 (by decide),
   by
    have h := (c5_otp_key_too_short [1, 2] [3, 0, 9]).2 (by decide)
    exact ⟨h.1, h.2 ⟨0, by decide, by decide⟩⟩⟩

/-- Session fixture for the C7 failing input: last activity at second 0. -/
def c7Session : KMSession :=
  { session_id := "s", user_email := "alice", created_at := 0, last_activity := 0
    active := true, keys_requested := 0, keys_consumed := 0, current_keys := [] }

/-- C7 (code bug): the source computes
`(utcnow() - last_activity).seconds > session_timeout`, and
`timedelta.seconds` is the within-day component (elapsed seconds modulo
86400), not the total duration. A session idle for 86410 seconds (one day
plus ten seconds, far beyond the 3600-second timeout) is reported NOT
expired, contradicting the claim that any inactivity beyond the timeout —
including durations exceeding one day — expires the session. -/
theorem c7_session_expiry_ignores_days :
    3600 < 86410 - c7Session.last_activity ∧
    KMSession.is_expired c7Session 86410 3600 = false ∧
    KMSession.is_expired c7Session 3601 3600 = true := by
  refine ⟨by decide, by decide, by decide⟩

/-- C10: every key lookup or consume attempt on a session stamps
`last_activity` with the current time, including failed ones — `get_key`
refreshes activity before the dictionary lookup, and `consume_key` goes
through `get_key`, so a consume of a nonexistent, expired, or
already-consumed key id still mutates the session. -/
theorem c10_failed_consume_refreshes_activity (s : KMSession) (key_id : String) (now : Nat) :
    (s.get_key key_id now).2.last_activity = now ∧
    (s.consume_key key_id now).2.last_activity = now := by
  constructor
  · rfl
  · unfold KMSession.consume_key KMSession.get_key KMSession.update_activity
    cases dictLookup s.current_keys key_id with
    | none => rfl
    | some k =>
      simp only []
      split
      · split <;> rfl
      · rfl

/-- C9: `decrypt_email` reads the mode with
`email_data.get("encryption_mode", "NONE")`: an envelope with no
`encryption_mode` field is processed by the NONE branch (its MAC check and
decode), not reported as an unknown mode; only an explicit mode outside
OTP/AES/PQC/NONE yields the unknown-mode error. -/
theorem c9_absent_mode_defaults_to_none (e : Envelope) (km_key : Option (List Nat)) :
    (e.encryption_mode = none → decryptCore e km_key = noneBranch e) ∧
    (∀ m, e.encryption_mode = some m → m ≠ "OTP" → m ≠ "AES" → m ≠ "PQC" → m ≠ "NONE" →
      decryptCore e km_key = .error ("Unknown encryption mode: " ++ m)) := by
  constructor
  · intro h
    simp [decryptCore, h]
  · intro m h h1 h2 h3 h4
    simp [decryptCore, h, h1, h2, h3, h4]

/-- Envelope fixture for the C9 witness: no `encryption_mode` field. -/
def c9Envelope : Envelope :=
  { toAddr := [], cc := [], bcc := [], encryption_mode := none, timestamp := none
    content := some [65], nonce := none, km_key_id := none, pqc_public := none
    pqc_ciphertext := none, mac := none, headers := none, subject := none
    body := none, attachments := none, decryption_status := none
    decryption_error := none }

/-- C9 witness: the concrete mode-less envelope takes the NONE branch, and
the same envelope with mode "XYZ" is reported as an unknown mode. -/
theorem c9_absent_mode_defaults_to_none_witness :
    decryptCore c9Envelope none = noneBranch c9Envelope ∧
    decryptCore { c9Envelope with encryption_mode := some "XYZ" } none =
      .error ("Unknown encryption mode: " ++ "XYZ") :=
  ⟨(c9_absent_mode_defaults_to_none c9Envelope none).1 rfl,
   (c9_absent_mode_defaults_to_none { c9Envelope with encryption_mode := some "XYZ" } none).2
     "XYZ" rfl (by decide) (by decide) (by decide) (by decide)⟩

theorem route_consumeKey_invalid_key {m : KeyManagerMock} {sid kid : String}
    {s : KMSession} {k : EphemeralKey} {t : Nat}
    (hs : dictLookup m.sessions sid = some s) (ha : s.active = true)
    (hk : dictLookup s.current_keys kid = some k) (hv : k.is_valid t = false) :
    (route_consumeKey m sid kid t).1 = .error (404, "Key not found or expired") := by
  unfold route_consumeKey KMSession.consume_key KMSession.get_key KMSession.update_activity
  rw [hs]
  simp only [ha, not_true_eq_false, ite_false, if_false, Bool.not_true]
  rw [hk]
  simp [hv]

/-- Session state after a successful `consume_key`: activity refreshed, the
key marked consumed in place, `keys_consumed` bumped. -/
def consumedSession (s : KMSession) (kid : String) (k : EphemeralKey) (t : Nat) : KMSession :=
  { s with last_activity := t
           current_keys := dictInsert s.current_keys kid { k with consumed := true }
           keys_consumed := s.keys_consumed + 1 }

theorem route_consumeKey_valid_key {m : KeyManagerMock} {sid kid : String}
    {s : KMSession} {k : EphemeralKey} {t : Nat}
    (hs : dictLookup m.sessions sid = some s) (ha : s.active = true)
    (hk : dictLookup s.current_keys kid = some k) (hv : k.is_valid t = true)
    (hd : k.key_data ≠ []) :
    route_consumeKey m sid kid t =
      (.ok k.key_data,
       { m with sessions := dictInsert m.sessions sid (consumedSession s kid k t) }) := by
  unfold route_consumeKey KMSession.consume_key KMSession.get_key KMSession.update_activity
    EphemeralKey.consume consumedSession
  rw [hs]
  simp only [ha, not_true_eq_false, ite_false, if_false, Bool.not_true]
  rw [hk]
  simp [hv, hd]

/-- C2: consuming an issued key succeeds exactly once. With the owning
session present and active: a key already marked consumed yields the 404
KeyNotFound error; a key whose TTL has elapsed (now past `expires_at`)
yields the same error even though it was never swept (the validity check
happens lazily at read time); and a successful consume returns the material
once and forces every later consume of the same key id — at any time — to
the 404 KeyNotFound error. -/
theorem c2_consume_key_single_use (m : KeyManagerMock) (sid kid : String)
    (s : KMSession) (k : EphemeralKey) (t : Nat)
    (hs : dictLookup m.sessions sid = some s) (ha : s.active = true)
    (hk : dictLookup s.current_keys kid = some k) :
    (k.consumed = true →
      (route_consumeKey m sid kid t).1 = .error (404, "Key not found or expired")) ∧
    (k.expires_at < t →
      (route_consumeKey m sid kid t).1 = .error (404, "Key not found or expired")) ∧
    (k.consumed = false → t ≤ k.expires_at → k.key_data ≠ [] →
      (route_consumeKey m sid kid t).1 = .ok k.key_data ∧
      ∀ t2, (route_consumeKey (route_consumeKey m sid kid t).2 sid kid t2).1 =
        .error (404, "Key not found or expired")) := by
  refine ⟨?_, ?_, ?_⟩
  · intro hc
    exact route_consumeKey_invalid_key hs ha hk (by simp [EphemeralKey.is_valid, hc])
  · intro he
    exact route_consumeKey_invalid_key hs ha hk
      (by simp [EphemeralKey.is_valid, EphemeralKey.is_expired, he])
  · intro hc he hd
    have hv : k.is_valid t = true := by
      simp [EphemeralKey.is_valid, EphemeralKey.is_expired, hc]
      omega
    have hroute := route_consumeKey_valid_key hs ha hk hv hd
    refine ⟨by rw [hroute], ?_⟩
    intro t2
    rw [hroute]
    have ha2 : (consumedSession s kid k t).active = true := ha
    have hk2 : dictLookup (consumedSession s kid k t).current_keys kid =
        some { k with consumed := true } :=
      dictLookup_insert_self _ _ _
    exact route_consumeKey_invalid_key (dictLookup_insert_self _ _ _) ha2 hk2
      (by simp [EphemeralKey.is_valid])

/-- Key fixture for the C2 witness: fresh, expiring at second 300. -/
def c2Key : EphemeralKey :=
  { key_id := "k1", key_data := [5, 6, 7], created_at := 0, expires_at := 300
    consumed := false, session_id := some "s1" }

/-- Session fixture for the C2 witness. -/
def c2Session : KMSession :=
  { session_id := "s1", user_email := "alice", created_at := 0, last_activity := 0
    active := true, keys_requested := 1, keys_consumed := 0
    current_keys := [("k1", c2Key)] }

/-- Manager fixture for the C2 witness. -/
def c2Manager : KeyManagerMock :=
  { sessions := [("s1", c2Session)], key_storage := [("k1", c2Key)] }

/-- C2 witness: at second 10 the concrete key is consumed successfully; a
second consume at second 20 is KeyNotFound; and without consuming, a first
consume at second 301 (past the TTL, never swept) is KeyNotFound. -/
theorem c2_consume_key_single_use_witness :
    (route_consumeKey c2Manager "s1" "k1" 10).1 = .ok [5, 6, 7] ∧
    (route_consumeKey (route_consumeKey c2Manager "s1" "k1" 10).2 "s1" "k1" 20).1 =
      .error (404, "Key not found or expired") ∧
    (route_consumeKey c2Manager "s1" "k1" 301).1 =
      .error (404, "Key not found or expired") := by
  have h := (c2_consume_key_single_use c2Manager "s1" "k1" c2Session c2Key 10
    rfl rfl rfl).2.2 rfl (by decide) (by decide)
  have h301 := (c2_consume_key_single_use c2Manager "s1" "k1" c2Session c2Key 301
    rfl rfl rfl).2.1 (by decide)
  exact ⟨h.1, h.2 20, h301⟩

/-- C6 (amended): with a present, active, unexpired session and a valid key
size, the getKey route fails with the 429 QuotaExceeded error exactly when
the session's key map `current_keys` already holds
`max_keys_per_session` entries — the source counts every stored key,
consumed and expired-but-unswept ones included, not only live keys — the
rejection happens before any state mutation (the manager is returned
unchanged), and a call under the limit succeeds. -/
theorem c6_quota_counts_all_keys (m : KeyManagerMock) (sid nid : String)
    (ks : Option Nat) (rand : Nat → Nat) (now : Nat) (s : KMSession)
    (hs : dictLookup m.sessions sid = some s) (ha : s.active = true)
    (hexp : s.is_expired now 3600 = false)
    (hsize : 16 ≤ ks.getD m.default_key_size ∧ ks.getD m.default_key_size ≤ m.max_key_size) :
    ((route_getKey m sid ks nid rand now).1 = .error (429, "Key limit exceeded") ↔
      m.max_keys_per_session ≤ s.current_keys.length) ∧
    (m.max_keys_per_session ≤ s.current_keys.length →
      (route_getKey m sid ks nid rand now).2 = m) ∧
    (s.current_keys.length < m.max_keys_per_session →
      (route_getKey m sid ks nid rand now).1 =
        .ok (nid, tokenBytes (ks.getD m.default_key_size) rand, now + m.key_expiry_seconds)) := by
  unfold route_getKey
  rw [hs]
  simp only [ha, hexp, not_true_eq_false, Bool.false_eq_true, or_self, ite_false, if_false]
  have hs1 : ¬ (m.max_key_size < ks.getD m.default_key_size ∨ ks.getD m.default_key_size < 16) := by
    omega
  simp only [hs1, ite_false, if_false]
  by_cases hq : m.max_keys_per_session ≤ s.current_keys.length
  · simp [hq]
  · refine ⟨by simp [hq], fun h => absurd h hq, fun _ => by simp [hq]⟩

/-- Consumed key fixture for the C6 counterexample. -/
def c6Key (i : Nat) : EphemeralKey :=
  { key_id := toString i, key_data := [1], created_at := 0, expires_at := 1000
    consumed := true, session_id := some "s1" }

/-- Session fixture for C6: its key map holds 100 keys, all consumed, so it
has zero live (unconsumed, unexpired) keys. -/
def c6Session : KMSession :=
  { session_id := "s1", user_email := "alice", created_at := 0, last_activity := 0
    active := true, keys_requested := 100, keys_consumed := 100
    current_keys := (List.range 100).map (fun i => (toString i, c6Key i)) }

/-- Manager fixture for C6 (default configuration, max 100 keys/session). -/
def c6Manager : KeyManagerMock :=
  { sessions := [("s1", c6Session)], key_storage := [] }

/-- C6 counterexample: the fixture session holds zero live keys — every one
of its 100 stored keys is consumed — yet the getKey route rejects the call
with the 429 QuotaExceeded error, refuting the claim that QuotaExceeded
happens exactly when the session holds `max_keys_per_session` live
(unconsumed, unexpired) keys. -/
theorem c6_quota_counts_all_keys_counterexample :
    (c6Session.current_keys.filter (fun p => p.2.is_valid 10)).length = 0 ∧
    c6Manager.max_keys_per_session = 100 ∧
    (route_getKey c6Manager "s1" none "fresh" (fun i => i % 256) 10).1 =
      .error (429, "Key limit exceeded") := by
  refine ⟨by decide, by decide, rfl⟩

/-- Small-session fixture for the C6 witness (no keys yet). -/
def c6SmallSession : KMSession :=
  { session_id := "s1", user_email := "alice", created_at := 0, last_activity := 0
    active := true, keys_requested := 0, keys_consumed := 0, current_keys := [] }

/-- Manager fixture around `c6SmallSession`. -/
def c6SmallManager : KeyManagerMock :=
  { sessions := [("s1", c6SmallSession)], key_storage := [] }

/-- C6 witness: at the full fixture the route rejects with QuotaExceeded
and leaves the manager unchanged; at the empty-session fixture the same
call succeeds. -/
theorem c6_quota_counts_all_keys_witness :
    (route_getKey c6Manager "s1" none "fresh" (fun i => i % 256) 10).1 =
      .error (429, "Key limit exceeded") ∧
    (route_getKey c6Manager "s1" none "fresh" (fun i => i % 256) 10).2 = c6Manager ∧
    (route_getKey c6SmallManager "s1" none "fresh" (fun i => i % 256) 10).1 =
      .ok ("fresh", tokenBytes 32 (fun i => i % 256), 310) := by
  have h := c6_quota_counts_all_keys c6Manager "s1" "fresh" none (fun i => i % 256) 10
    c6Session rfl rfl (by decide) (by decide)
  have hlen : 100 ≤ c6Session.current_keys.length := by decide
  have h2 := c6_quota_counts_all_keys c6SmallManager "s1" "fresh" none (fun i => i % 256) 10
    c6SmallSession rfl rfl (by decide) (by decide)
  exact ⟨h.1.mpr hlen, h.2.1 hlen, h2.2.2 (by decide)⟩

/-- Serialized content bytes of an email (shared abbreviation). -/
def contentBytes (P : EmailData) : List Nat := serializeContent (contentOf P)

/-- OTP ciphertext produced by `encrypt_email` for email `P` and key `K`. -/
def otpCt (P : EmailData) (K : List Nat) : List Nat :=
  List.zipWith Nat.xor (contentBytes P) (K.take (contentBytes P).length)

/-- Envelope skeleton shared by every `encrypt_email` branch. -/
def baseEnvelope (P : EmailData) (mode : String) (now : Nat) : Envelope :=
  { toAddr := P.toAddr, cc := P.cc, bcc := P.bcc
    encryption_mode := some mode, timestamp := some now
    content := none, nonce := none, km_key_id := none
    pqc_public := none, pqc_ciphertext := none, mac := none
    headers := some mode
    subject := none, body := none, attachments := none
    decryption_status := none, decryption_error := none }

/-- Envelope produced by `encrypt_email` in OTP mode. -/
def otpEnvelope (P : EmailData) (K : List Nat) (now : Nat) : Envelope :=
  { baseEnvelope P "OTP" now with
    content := some (b64encode (otpCt P K))
    km_key_id := some (kmKeyIdOf K)
    mac := some (compute_hmac (otpCt P K) (sha256 (K ++ strBytes "MAC"))) }

/-- AES-GCM ciphertext produced by `encrypt_email` for email `P`, key `K`
and random stream `rand`: the AES key is always the 32-byte SHA-256 digest
of `K ++ "AES"`. -/
def aesCt (P : EmailData) (K : List Nat) (rand : Nat → Nat) : List Nat :=
  aesgcmEncrypt (sha256 (K ++ strBytes "AES")) (tokenBytes 12 rand) (contentBytes P)

/-- Envelope produced by `encrypt_email` in AES mode. -/
def aesEnvelope (P : EmailData) (K : List Nat) (rand : Nat → Nat) (now : Nat) : Envelope :=
  { baseEnvelope P "AES" now with
    content := some (b64encode (aesCt P K rand))
    nonce := some (b64encode (tokenBytes 12 rand))
    km_key_id := some (kmKeyIdOf K)
    mac := some (compute_hmac (aesCt P K rand ++ tokenBytes 12 rand)
      (sha256 (K ++ strBytes "MAC"))) }

/-- Envelope produced by `encrypt_email` in NONE mode. -/
def noneEnvelope (P : EmailData) (now : Nat) : Envelope :=
  { baseEnvelope P "NONE" now with
    content := some (b64encode (contentBytes P))
    mac := some (compute_hmac (contentBytes P) (strBytes "qumail_default_key")) }

theorem encrypt_email_otp_eq (P : EmailData) (K : List Nat) (rand : Nat → Nat) (now : Nat)
    (hKne : K ≠ []) (hlen : (contentBytes P).length ≤ K.length) :
    encrypt_email P "OTP" (some K) rand now = .ok (otpEnvelope P K now) := by
  have hlen2 : ¬ K.length < (serializeContent (contentOf P)).length := Nat.not_lt.mpr hlen
  unfold encrypt_email otp_encrypt otpEnvelope baseEnvelope otpCt contentBytes
  simp [hKne, hlen2]

theorem encrypt_email_aes_eq (P : EmailData) (K : List Nat) (rand : Nat → Nat) (now : Nat)
    (hKne : K ≠ []) :
    encrypt_email P "AES" (some K) rand now = .ok (aesEnvelope P K rand now) := by
  unfold encrypt_email aes_encrypt aesEnvelope baseEnvelope aesCt contentBytes
  simp [hKne, sha256_length]

theorem encrypt_email_none_eq (P : EmailData) (rand : Nat → Nat) (now : Nat) :
    encrypt_email P "NONE" none rand now = .ok (noneEnvelope P now) := by
  unfold encrypt_email noneEnvelope baseEnvelope contentBytes
  simp

theorem isBytes_take {l : List Nat} (h : isBytes l) (n : Nat) : isBytes (l.take n) :=
  fun b hb => h b (List.take_subset n l hb)

theorem contentBytes_bytes {P : EmailData} (hsub : isBytes P.subject)
    (hbody : isBytes P.body) (hatt : isBytes P.attachments) :
    isBytes (contentBytes P) :=
  serializeContent_bytes (c := contentOf P) hsub hbody hatt

theorem otpCt_eq_zip {P : EmailData} {K : List Nat} :
    otpCt P K = List.zipWith Nat.xor (contentBytes P) K :=
  zipWith_xor_take _ _

theorem otpCt_length {P : EmailData} {K : List Nat}
    (hlen : (contentBytes P).length ≤ K.length) :
    (otpCt P K).length = (contentBytes P).length := by
  rw [otpCt_eq_zip]
  exact zipWith_xor_length hlen

theorem decryptCore_otpEnvelope (P : EmailData) (K : List Nat) (now : Nat)
    (hsub : isBytes P.subject) (hbody : isBytes P.body) (hatt : isBytes P.attachments)
    (hK : isBytes K) (hKne : K ≠ []) (hlen : (contentBytes P).length ≤ K.length) :
    decryptCore (otpEnvelope P K now) (some K) = .ok (contentOf P) := by
  have hcb : isBytes (contentBytes P) := contentBytes_bytes hsub hbody hatt
  have hctB : isBytes (otpCt P K) := by
    rw [otpCt_eq_zip]
    exact zipWith_xor_bytes hcb hK
  have hmk : isBytes (sha256 (K ++ strBytes "MAC")) := sha256_bytes _
  have hctlen := otpCt_length hlen
  have hnotlt : ¬ K.length < (otpCt P K).length := by omega
  unfold decryptCore otpBranch otpEnvelope baseEnvelope
  simp only [Option.getD_some, if_true, ite_true, hKne, ite_false, if_false, reduceIte]
  rw [b64_roundtrip _ hctB]
  simp only []
  rw [verify_compute_self hmk hctB]
  simp only [not_true_eq_false, ite_false, if_false, Bool.not_true]
  unfold otp_decrypt
  simp only [hnotlt, ite_false, if_false]
  rw [zipWith_xor_take, otpCt_eq_zip, zipWith_xor_cancel _ _ hlen]
  unfold contentBytes
  rw [deserialize_serialize]

theorem aesgcmDecrypt_encrypt (key nonce pt : List Nat) :
    aesgcmDecrypt key nonce (aesgcmEncrypt key nonce pt) = .ok pt := by
  unfold aesgcmDecrypt aesgcmEncrypt
  simp only [List.take_left, List.drop_left, ite_true, if_true, reduceIte]

theorem aesCt_bytes {P : EmailData} {K : List Nat} {rand : Nat → Nat}
    (hcb : isBytes (contentBytes P)) : isBytes (aesCt P K rand) := by
  unfold aesCt aesgcmEncrypt
  exact isBytes_append
    (isBytes_append (encB_bytes (sha256_bytes _)) (encB_bytes (tokenBytes_bytes _ _))) hcb

theorem decryptCore_aesEnvelope (P : EmailData) (K : List Nat) (rand : Nat → Nat) (now : Nat)
    (hsub : isBytes P.subject) (hbody : isBytes P.body) (hatt : isBytes P.attachments)
    (hKne : K ≠ []) :
    decryptCore (aesEnvelope P K rand now) (some K) = .ok (contentOf P) := by
  have hcb : isBytes (contentBytes P) := contentBytes_bytes hsub hbody hatt
  have hctB : isBytes (aesCt P K rand) := aesCt_bytes hcb
  have hnB : isBytes (tokenBytes 12 rand) := tokenBytes_bytes _ _
  have hmk : isBytes (sha256 (K ++ strBytes "MAC")) := sha256_bytes _
  unfold decryptCore aesBranch aesEnvelope baseEnvelope
  simp only [Option.getD_some, if_true, ite_true, hKne, ite_false, if_false, reduceIte,
    String.reduceEq]
  rw [b64_roundtrip _ hctB]
  simp only []
  rw [b64_roundtrip _ hnB]
  simp only []
  rw [verify_compute_self hmk (isBytes_append hctB hnB)]
  simp only [not_true_eq_false, ite_false, if_false, Bool.not_true]
  unfold aes_decrypt
  simp only [sha256_length, or_true, true_or, ite_true, if_true]
  unfold aesCt
  rw [aesgcmDecrypt_encrypt]
  simp only []
  unfold contentBytes
  rw [deserialize_serialize]

theorem decryptCore_noneEnvelope (P : EmailData) (now : Nat)
    (hsub : isBytes P.subject) (hbody : isBytes P.body) (hatt : isBytes P.attachments) :
    ∀ km_key, decryptCore (noneEnvelope P now) km_key = .ok (contentOf P) := by
  intro km_key
  have hcb : isBytes (contentBytes P) := contentBytes_bytes hsub hbody hatt
  have hdk : isBytes (strBytes "qumail_default_key") := by decide
  unfold decryptCore noneBranch noneEnvelope baseEnvelope
  simp only [Option.getD_some, if_true, ite_true, ite_false, if_false, reduceIte,
    String.reduceEq]
  rw [b64_roundtrip _ hcb]
  simp only []
  rw [verify_compute_self hdk hcb]
  simp only [not_true_eq_false, ite_false, if_false, Bool.not_true]
  unfold contentBytes
  rw [deserialize_serialize]

/-- Successful decrypt result: the ciphertext envelope annotated with the
recovered content fields and `decryption_status = "success"`. -/
def successEnvelope (e : Envelope) (P : EmailData) : Envelope :=
  { e with subject := some P.subject, body := some P.body
           attachments := some P.attachments
           decryption_status := some "success" }

/-- C1: for every plaintext envelope `P` and key material acceptable for
the mode, decrypting the result of `encrypt_email` with the same key
succeeds (`decryption_status = "success"`) and reproduces `P`'s subject,
body and attachments exactly. For AES any non-empty byte key of any length
is acceptable (the source normalizes it with SHA-256 before use); for OTP
the key must additionally be at least as long as the serialized content —
that hypothesis scopes over the OTP conjunct only; NONE takes no key.
The empty plaintext (empty subject, body and attachments, the `c1Email`
witness below) is valid for every mode and round-trips to empty. -/
theorem c1_encrypt_decrypt_round_trip (P : EmailData) (K : List Nat)
    (rand : Nat → Nat) (now : Nat)
    (hsub : isBytes P.subject) (hbody : isBytes P.body) (hatt : isBytes P.attachments)
    (hK : isBytes K) (hKne : K ≠ []) :
    ((contentBytes P).length ≤ K.length →
      ∃ e, encrypt_email P "OTP" (some K) rand now = .ok e ∧
        decrypt_email e (some K) = successEnvelope e P) ∧
    (∃ e, encrypt_email P "AES" (some K) rand now = .ok e ∧
      decrypt_email e (some K) = successEnvelope e P) ∧
    (∃ e, encrypt_email P "NONE" none rand now = .ok e ∧
      decrypt_email e none = successEnvelope e P) := by
  refine ⟨fun hlen => ⟨otpEnvelope P K now, encrypt_email_otp_eq P K rand now hKne hlen, ?_⟩,
          ⟨aesEnvelope P K rand now, encrypt_email_aes_eq P K rand now hKne, ?_⟩,
          ⟨noneEnvelope P now, encrypt_email_none_eq P rand now, ?_⟩⟩
  · unfold decrypt_email successEnvelope
    rw [decryptCore_otpEnvelope P K now hsub hbody hatt hK hKne hlen]
    rfl
  · unfold decrypt_email successEnvelope
    rw [decryptCore_aesEnvelope P K rand now hsub hbody hatt hKne]
    rfl
  · unfold decrypt_email successEnvelope
    rw [decryptCore_noneEnvelope P now hsub hbody hatt none]
    rfl

/-- Empty plaintext envelope for the C1 witness. -/
def c1Email : EmailData :=
  { toAddr := [], cc := [], bcc := [], subject := [], body := [], attachments := [] }

/-- Key fixture for the C1 witness (long enough for the OTP content). -/
def c1Key : List Nat := [5, 9, 13]

/-- Short key fixture for the C1 witness: a single byte, shorter than
`c1Email`'s 3-byte serialized content, acceptable for AES (the source
SHA-256-normalizes it) though not for OTP. -/
def c1ShortKey : List Nat := [7]

/-- C1 witness: the empty plaintext with the concrete 3-byte key satisfies
every hypothesis and round-trips in all three modes; additionally the AES
round-trip holds for the 1-byte key shorter than the serialized content. -/
theorem c1_encrypt_decrypt_round_trip_witness :
    (isBytes c1Key ∧ c1Key ≠ [] ∧ (contentBytes c1Email).length ≤ c1Key.length) ∧
    (∃ e, encrypt_email c1Email "OTP" (some c1Key) (fun i => i % 256) 0 = .ok e ∧
      decrypt_email e (some c1Key) = successEnvelope e c1Email) ∧
    (∃ e, encrypt_email c1Email "AES" (some c1Key) (fun i => i % 256) 0 = .ok e ∧
      decrypt_email e (some c1Key) = successEnvelope e c1Email) ∧
    (∃ e, encrypt_email c1Email "NONE" none (fun i => i % 256) 0 = .ok e ∧
      decrypt_email e none = successEnvelope e c1Email) ∧
    (c1ShortKey.length < (contentBytes c1Email).length ∧
      ∃ e, encrypt_email c1Email "AES" (some c1ShortKey) (fun i => i % 256) 0 = .ok e ∧
        decrypt_email e (some c1ShortKey) = successEnvelope e c1Email) := by
  have h := c1_encrypt_decrypt_round_trip c1Email c1Key (fun i => i % 256) 0
    (by decide) (by decide) (by decide) (by decide) (by decide)
  have hshort := c1_encrypt_decrypt_round_trip c1Email c1ShortKey (fun i => i % 256) 0
    (by decide) (by decide) (by decide) (by decide) (by decide)
  exact ⟨⟨by decide, by decide, by decide⟩, h.1 (by decide), h.2.1, h.2.2,
         by decide, hshort.2.1⟩

theorem verify_hmac_wrong_digest {data key d2 : List Nat} (hd2 : isBytes d2)
    (hne : d2 ≠ hmacSha256 key data) :
    verify_hmac data key (b64encode d2) = false := by
  unfold verify_hmac
  rw [b64_roundtrip _ hd2]
  simp only [decide_eq_false_iff_not]
  intro hcontra
  exact hne hcontra.symm

/-- Decrypt failure result on a MAC mismatch: the envelope annotated with
the error status and the MAC-verification reason, plaintext fields
untouched. -/
def macFailEnvelope (e : Envelope) : Envelope :=
  { e with decryption_status := some "error"
           decryption_error := some "MAC verification failed" }

theorem decrypt_otp_content_tamper (P : EmailData) (K : List Nat) (now : Nat)
    (hsub : isBytes P.subject) (hbody : isBytes P.body) (hatt : isBytes P.attachments)
    (hK : isBytes K) (hKne : K ≠ []) (ct2 : List Nat) (hct2 : isBytes ct2)
    (hne : ct2 ≠ otpCt P K) :
    decrypt_email { otpEnvelope P K now with content := some (b64encode ct2) } (some K) =
      macFailEnvelope { otpEnvelope P K now with content := some (b64encode ct2) } := by
  have hcb : isBytes (contentBytes P) := contentBytes_bytes hsub hbody hatt
  have hctB : isBytes (otpCt P K) := by
    rw [otpCt_eq_zip]
    exact zipWith_xor_bytes hcb hK
  have hmk : isBytes (sha256 (K ++ strBytes "MAC")) := sha256_bytes _
  unfold decrypt_email decryptCore otpBranch otpEnvelope baseEnvelope macFailEnvelope
  simp only [Option.getD_some, if_true, ite_true, hKne, ite_false, if_false, reduceIte,
    String.reduceEq]
  rw [b64_roundtrip _ hct2]
  simp only []
  rw [verify_hmac_of_encode_ne hmk hctB hne]
  rfl

theorem decrypt_otp_mac_tamper (P : EmailData) (K : List Nat) (now : Nat)
    (hsub : isBytes P.subject) (hbody : isBytes P.body) (hatt : isBytes P.attachments)
    (hK : isBytes K) (hKne : K ≠ []) (d2 : List Nat) (hd2 : isBytes d2)
    (hne : d2 ≠ hmacSha256 (sha256 (K ++ strBytes "MAC")) (otpCt P K)) :
    decrypt_email { otpEnvelope P K now with mac := some (b64encode d2) } (some K) =
      macFailEnvelope { otpEnvelope P K now with mac := some (b64encode d2) } := by
  have hcb : isBytes (contentBytes P) := contentBytes_bytes hsub hbody hatt
  have hctB : isBytes (otpCt P K) := by
    rw [otpCt_eq_zip]
    exact zipWith_xor_bytes hcb hK
  unfold decrypt_email decryptCore otpBranch otpEnvelope baseEnvelope macFailEnvelope
  simp only [Option.getD_some, if_true, ite_true, hKne, ite_false, if_false, reduceIte,
    String.reduceEq]
  rw [b64_roundtrip _ hctB]
  simp only []
  rw [verify_hmac_wrong_digest hd2 hne]
  rfl

theorem decrypt_aes_content_tamper (P : EmailData) (K : List Nat) (rand : Nat → Nat)
    (now : Nat)
    (hsub : isBytes P.subject) (hbody : isBytes P.body) (hatt : isBytes P.attachments)
    (hKne : K ≠ []) (ct2 : List Nat) (hct2 : isBytes ct2)
    (hne : ct2 ≠ aesCt P K rand) :
    decrypt_email { aesEnvelope P K rand now with content := some (b64encode ct2) } (some K) =
      macFailEnvelope { aesEnvelope P K rand now with content := some (b64encode ct2) } := by
  have hcb : isBytes (contentBytes P) := contentBytes_bytes hsub hbody hatt
  have hctB : isBytes (aesCt P K rand) := aesCt_bytes hcb
  have hnB : isBytes (tokenBytes 12 rand) := tokenBytes_bytes _ _
  have hmk : isBytes (sha256 (K ++ strBytes "MAC")) := sha256_bytes _
  have hne2 : ct2 ++ tokenBytes 12 rand ≠ aesCt P K rand ++ tokenBytes 12 rand := by
    intro hcontra
    exact hne (List.append_cancel_right hcontra)
  unfold decrypt_email decryptCore aesBranch aesEnvelope baseEnvelope macFailEnvelope
  simp only [Option.getD_some, if_true, ite_true, hKne, ite_false, if_false, reduceIte,
    String.reduceEq]
  rw [b64_roundtrip _ hct2]
  simp only []
  rw [b64_roundtrip _ hnB]
  simp only []
  rw [verify_hmac_of_encode_ne hmk (isBytes_append hctB hnB) hne2]
  rfl

theorem decrypt_aes_mac_tamper (P : EmailData) (K : List Nat) (rand : Nat → Nat)
    (now : Nat)
    (hsub : isBytes P.subject) (hbody : isBytes P.body) (hatt : isBytes P.attachments)
    (hKne : K ≠ []) (d2 : List Nat) (hd2 : isBytes d2)
    (hne : d2 ≠ hmacSha256 (sha256 (K ++ strBytes "MAC"))
      (aesCt P K rand ++ tokenBytes 12 rand)) :
    decrypt_email { aesEnvelope P K rand now with mac := some (b64encode d2) } (some K) =
      macFailEnvelope { aesEnvelope P K rand now with mac := some (b64encode d2) } := by
  have hcb : isBytes (contentBytes P) := contentBytes_bytes hsub hbody hatt
  have hctB : isBytes (aesCt P K rand) := aesCt_bytes hcb
  have hnB : isBytes (tokenBytes 12 rand) := tokenBytes_bytes _ _
  unfold decrypt_email decryptCore aesBranch aesEnvelope baseEnvelope macFailEnvelope
  simp only [Option.getD_some, if_true, ite_true, hKne, ite_false, if_false, reduceIte,
    String.reduceEq]
  rw [b64_roundtrip _ hctB]
  simp only []
  rw [b64_roundtrip _ hnB]
  simp only []
  rw [verify_hmac_wrong_digest hd2 hne]
  rfl

theorem decrypt_none_content_tamper (P : EmailData) (now : Nat)
    (hsub : isBytes P.subject) (hbody : isBytes P.body) (hatt : isBytes P.attachments)
    (ct2 : List Nat) (hct2 : isBytes ct2) (hne : ct2 ≠ contentBytes P) :
    decrypt_email { noneEnvelope P now with content := some (b64encode ct2) } none =
      macFailEnvelope { noneEnvelope P now with content := some (b64encode ct2) } := by
  have hcb : isBytes (contentBytes P) := contentBytes_bytes hsub hbody hatt
  have hdk : isBytes (strBytes "qumail_default_key") := by decide
  unfold decrypt_email decryptCore noneBranch noneEnvelope baseEnvelope macFailEnvelope
  simp only [Option.getD_some, if_true, ite_true, ite_false, if_false, reduceIte,
    String.reduceEq]
  rw [b64_roundtrip _ hct2]
  simp only []
  rw [verify_hmac_of_encode_ne hdk hcb hne]
  rfl

theorem decrypt_none_mac_tamper (P : EmailData) (now : Nat)
    (hsub : isBytes P.subject) (hbody : isBytes P.body) (hatt : isBytes P.attachments)
    (d2 : List Nat) (hd2 : isBytes d2)
    (hne : d2 ≠ hmacSha256 (strBytes "qumail_default_key") (contentBytes P)) :
    decrypt_email { noneEnvelope P now with mac := some (b64encode d2) } none =
      macFailEnvelope { noneEnvelope P now with mac := some (b64encode d2) } := by
  have hcb : isBytes (contentBytes P) := contentBytes_bytes hsub hbody hatt
  unfold decrypt_email decryptCore noneBranch noneEnvelope baseEnvelope macFailEnvelope
  simp only [Option.getD_some, if_true, ite_true, ite_false, if_false, reduceIte,
    String.reduceEq]
  rw [b64_roundtrip _ hcb]
  simp only []
  rw [verify_hmac_wrong_digest hd2 hne]
  rfl

/-- C3 (amended): for every envelope produced by `encrypt_email` in mode
OTP, AES or NONE, any tamper that changes the decoded bytes of the
`content` field (the raw ciphertext) or of the `mac` field (the MAC digest)
makes `decrypt_email` fail with the MAC-verification error and return the
tampered envelope annotated with `decryption_status = "error"`, its
plaintext fields untouched — the MAC is checked before any decrypted bytes
are interpreted, so no plaintext is returned. (Bit flips of the base64
text that leave the decoded bytes unchanged — flips confined to the unused
trailing bits of the final base64 character, which Python's lenient
decoder discards — are not detected; see the counterexample.) -/
theorem c3_tamper_detected_on_decoded_bytes (P : EmailData) (K : List Nat)
    (rand : Nat → Nat) (now : Nat)
    (hsub : isBytes P.subject) (hbody : isBytes P.body) (hatt : isBytes P.attachments)
    (hK : isBytes K) (hKne : K ≠ []) :
    (∀ ct2, isBytes ct2 → ct2 ≠ otpCt P K →
      decrypt_email { otpEnvelope P K now with content := some (b64encode ct2) } (some K) =
        macFailEnvelope { otpEnvelope P K now with content := some (b64encode ct2) }) ∧
    (∀ d2, isBytes d2 → d2 ≠ hmacSha256 (sha256 (K ++ strBytes "MAC")) (otpCt P K) →
      decrypt_email { otpEnvelope P K now with mac := some (b64encode d2) } (some K) =
        macFailEnvelope { otpEnvelope P K now with mac := some (b64encode d2) }) ∧
    (∀ ct2, isBytes ct2 → ct2 ≠ aesCt P K rand →
      decrypt_email { aesEnvelope P K rand now with content := some (b64encode ct2) } (some K) =
        macFailEnvelope { aesEnvelope P K rand now with content := some (b64encode ct2) }) ∧
    (∀ d2, isBytes d2 →
      d2 ≠ hmacSha256 (sha256 (K ++ strBytes "MAC")) (aesCt P K rand ++ tokenBytes 12 rand) →
      decrypt_email { aesEnvelope P K rand now with mac := some (b64encode d2) } (some K) =
        macFailEnvelope { aesEnvelope P K rand now with mac := some (b64encode d2) }) ∧
    (∀ ct2, isBytes ct2 → ct2 ≠ contentBytes P →
      decrypt_email { noneEnvelope P now with content := some (b64encode ct2) } none =
        macFailEnvelope { noneEnvelope P now with content := some (b64encode ct2) }) ∧
    (∀ d2, isBytes d2 → d2 ≠ hmacSha256 (strBytes "qumail_default_key") (contentBytes P) →
      decrypt_email { noneEnvelope P now with mac := some (b64encode d2) } none =
        macFailEnvelope { noneEnvelope P now with mac := some (b64encode d2) }) :=
  ⟨fun ct2 h1 h2 => decrypt_otp_content_tamper P K now hsub hbody hatt hK hKne ct2 h1 h2,
   fun d2 h1 h2 => decrypt_otp_mac_tamper P K now hsub hbody hatt hK hKne d2 h1 h2,
   fun ct2 h1 h2 => decrypt_aes_content_tamper P K rand now hsub hbody hatt hKne ct2 h1 h2,
   fun d2 h1 h2 => decrypt_aes_mac_tamper P K rand now hsub hbody hatt hKne d2 h1 h2,
   fun ct2 h1 h2 => decrypt_none_content_tamper P now hsub hbody hatt ct2 h1 h2,
   fun d2 h1 h2 => decrypt_none_mac_tamper P now hsub hbody hatt d2 h1 h2⟩

/-- Email fixture for C3: subject is the single byte 0, making the
serialized content 5 bytes long so its base64 text ends in a character with
two unused trailing bits. -/
def c3Email : EmailData :=
  { toAddr := [], cc := [], bcc := [], subject := [0], body := [], attachments := [] }

/-- The NONE-mode envelope `encrypt_email` produces for `c3Email`. -/
def c3Envelope : Envelope := noneEnvelope c3Email 0

/-- The C3 tampered envelope: flip bit 1 of the character at index 6 of the
`content` field — the last data character of its base64 text, turning the
character code 65 into 67. -/
def c3Tampered : Envelope :=
  { c3Envelope with
    content := c3Envelope.content.map (fun l => l.set 6 (l.getD 6 0 ^^^ 2)) }

/-- C3 counterexample: the claim says flipping any bit of the `content`
field always yields an integrity failure, but the content field is base64
text and Python's decoder discards the unused trailing bits of the final
character: flipping bit 1 of the character at index 6 (code 65, the letter
A, to code 67, the letter C) produces a different envelope whose content
decodes to the same bytes, and `decrypt_email` succeeds, returning the
plaintext. -/
theorem c3_tamper_detected_counterexample :
    encrypt_email c3Email "NONE" none (fun i => i % 256) 0 = .ok c3Envelope ∧
    c3Envelope.content = some [65, 81, 65, 65, 65, 65, 65, 61] ∧
    c3Tampered.content = some [65, 81, 65, 65, 65, 65, 67, 61] ∧
    (67 : Nat) = 65 ^^^ 2 ∧
    c3Tampered ≠ c3Envelope ∧
    decrypt_email c3Tampered none = successEnvelope c3Tampered c3Email := by
  refine ⟨?_, by decide, by decide, by decide, by decide, ?_⟩
  · exact encrypt_email_none_eq c3Email (fun i => i % 256) 0
  · rfl

/-- Key fixture for the C3 witness: 5 bytes, as long as `c3Email`'s
serialized content. -/
def c3Key : List Nat := [5, 9, 13, 2, 4]

/-- C3 witness: concrete byte-level tampers — a content replaced by the
encoding of `[9]` and a mac digest replaced by `[0]` — are rejected with
the MAC-verification failure in each mode. -/
theorem c3_tamper_detected_on_decoded_bytes_witness :
    (decrypt_email { otpEnvelope c3Email c3Key 0 with content := some (b64encode [9]) }
        (some c3Key) =
      macFailEnvelope { otpEnvelope c3Email c3Key 0 with content := some (b64encode [9]) }) ∧
    (decrypt_email { otpEnvelope c3Email c3Key 0 with mac := some (b64encode [0]) }
        (some c3Key) =
      macFailEnvelope { otpEnvelope c3Email c3Key 0 with mac := some (b64encode [0]) }) ∧
    (decrypt_email
        { aesEnvelope c3Email c3Key (fun i => i % 256) 0 with content := some (b64encode [9]) }
        (some c3Key) =
      macFailEnvelope
        { aesEnvelope c3Email c3Key (fun i => i % 256) 0 with
          content := some (b64encode [9]) }) ∧
    (decrypt_email
        { aesEnvelope c3Email c3Key (fun i => i % 256) 0 with mac := some (b64encode [0]) }
        (some c3Key) =
      macFailEnvelope
        { aesEnvelope c3Email c3Key (fun i => i % 256) 0 with mac := some (b64encode [0]) }) ∧
    (decrypt_email { noneEnvelope c3Email 0 with content := some (b64encode [9]) } none =
      macFailEnvelope { noneEnvelope c3Email 0 with content := some (b64encode [9]) }) ∧
    (decrypt_email { noneEnvelope c3Email 0 with mac := some (b64encode [0]) } none =
      macFailEnvelope { noneEnvelope c3Email 0 with mac := some (b64encode [0]) }) := by
  have h := c3_tamper_detected_on_decoded_bytes c3Email c3Key (fun i => i % 256) 0
    (by decide) (by decide) (by decide) (by decide) (by decide)
  exact ⟨h.1 [9] (by decide) (by decide),
         h.2.1 [0] (by decide) (by decide),
         h.2.2.1 [9] (by decide) (by decide),
         h.2.2.2.1 [0] (by decide) (by decide),
         h.2.2.2.2.1 [9] (by decide) (by decide),
         h.2.2.2.2.2 [0] (by decide) (by decide)⟩

/-- Modelled from the spec: the AES-mode key derivation as the C8 claim
words it — a 256-bit key derived from `material ‖ "AES"` via the standard
password-based KDF (PBKDF2) with the fixed salt and 100000 iterations.
Defined only for comparison with what the code actually computes. -/
def specC8Key (material : List Nat) : List Nat :=
  pbkdf2_hmac_sha256 (material ++ strBytes "AES") (strBytes "qumail_salt") 100000

/-- C8 (amended): in AES mode `encrypt_email` always — for every key
material length — derives the encryption key as the 32-byte SHA-256 digest
of `material ‖ "AES"`, which, being 32 bytes, is used directly by AES-GCM
(the PBKDF2 fallback inside `aes_encrypt` is never taken on this path; it
applies only to direct `aes_encrypt` calls whose key is not 16/24/32
bytes, with the fixed salt and 100000 iterations), and encryption uses a
fresh 96-bit (12-byte) nonce drawn from the call's random source. -/
theorem c8_aes_key_is_sha256_not_pbkdf2 (P : EmailData) (K : List Nat)
    (rand : Nat → Nat) (now : Nat) (hKne : K ≠ []) :
    (encrypt_email P "AES" (some K) rand now = .ok (aesEnvelope P K rand now)) ∧
    ((sha256 (K ++ strBytes "AES")).length = 32) ∧
    ((aesEnvelope P K rand now).content =
      some (b64encode (aesgcmEncrypt (sha256 (K ++ strBytes "AES")) (tokenBytes 12 rand)
        (contentBytes P)))) ∧
    ((aesEnvelope P K rand now).nonce = some (b64encode (tokenBytes 12 rand))) ∧
    ((tokenBytes 12 rand).length = 12) ∧
    (∀ pt k2, ¬(k2.length = 16 ∨ k2.length = 24 ∨ k2.length = 32) →
      aes_encrypt pt k2 rand =
        (aesgcmEncrypt (pbkdf2_hmac_sha256 k2 (strBytes "qumail_salt") 100000)
          (tokenBytes 12 rand) pt, tokenBytes 12 rand)) := by
  refine ⟨encrypt_email_aes_eq P K rand now hKne, sha256_length _, rfl, rfl,
    tokenBytes_length _ _, ?_⟩
  intro pt k2 h
  unfold aes_encrypt
  simp [h]

/-- Email fixture for C8. -/
def c8Email : EmailData :=
  { toAddr := [], cc := [], bcc := [], subject := [1], body := [2], attachments := [] }

/-- Key material fixture for C8: 3 bytes, not one of the AES key lengths. -/
def c8Material : List Nat := [1, 2, 3]

/-- C8 counterexample: for the 3-byte material (not 16/24/32 bytes, so the
claim says PBKDF2 must derive the key), the AES-mode envelope is encrypted
under the SHA-256-derived key, which differs from the key the claim
prescribes (`specC8Key`, the PBKDF2 derivation from `material ‖ "AES"` with
the fixed salt and 100000 iterations). -/
theorem c8_aes_key_is_sha256_not_pbkdf2_counterexample :
    ¬(c8Material.length = 16 ∨ c8Material.length = 24 ∨ c8Material.length = 32) ∧
    sha256 (c8Material ++ strBytes "AES") ≠ specC8Key c8Material ∧
    encrypt_email c8Email "AES" (some c8Material) (fun i => i % 256) 0 =
      .ok (aesEnvelope c8Email c8Material (fun i => i % 256) 0) ∧
    (aesEnvelope c8Email c8Material (fun i => i % 256) 0).content =
      some (b64encode (aesgcmEncrypt (sha256 (c8Material ++ strBytes "AES"))
        (tokenBytes 12 (fun i => i % 256)) (contentBytes c8Email))) := by
  refine ⟨by decide, by decide, ?_, rfl⟩
  exact encrypt_email_aes_eq c8Email c8Material (fun i => i % 256) 0 (by decide)

/-- C8 witness: the amended theorem applied at the concrete fixture; the
direct `aes_encrypt` fallback instantiated at a 3-byte key. -/
theorem c8_aes_key_is_sha256_not_pbkdf2_witness :
    (encrypt_email c8Email "AES" (some c8Material) (fun i => i % 256) 0 =
      .ok (aesEnvelope c8Email c8Material (fun i => i % 256) 0)) ∧
    ((sha256 (c8Material ++ strBytes "AES")).length = 32) ∧
    ((tokenBytes 12 (fun i => i % 256)).length = 12) ∧
    aes_encrypt [7] c8Material (fun i => i % 256) =
      (aesgcmEncrypt (pbkdf2_hmac_sha256 c8Material (strBytes "qumail_salt") 100000)
        (tokenBytes 12 (fun i => i % 256)) [7], tokenBytes 12 (fun i => i % 256)) := by
  have h := c8_aes_key_is_sha256_not_pbkdf2 c8Email c8Material (fun i => i % 256) 0
    (by decide)
  exact ⟨h.1, h.2.1, h.2.2.2.2.1, h.2.2.2.2.2 [7] c8Material (by decide)⟩
